import Mathlib

/- Verification of the `windows_wgi` platform backend of `gilrs-core`
(`gilrs-core/src/platform/windows_wgi/gamepad.rs`), as a shallow embedding.

Modelling conventions:
* Machine integers are `Nat`/`Int`; wrapping or saturating casts are written
  out explicitly (`% 256`, clamping at the `i32` bounds, and so on).
* `f64`/`f32` samples are modelled as exact rationals `ℚ`; the Rust numeric
  casts `as i32` / `as u8` (truncation toward zero, saturating at the target
  bounds) are made explicit.  All concrete inputs used below are exactly
  representable in the corresponding floating-point formats, and the
  arithmetic on them is exact.
* Fallible WinRT calls become `Option`-valued fields on the modelled handles
  (`none` = the call returns an error).
* The backend only compiles for Windows targets, which are little-endian, so
  `u16::to_be` / `u32::to_be` swap bytes.
-/

/-- Discriminants of the Rust enum `EvCodeKind` (`Button = 0`, then `Axis`,
`Switch` implicitly numbered). -/
inductive EvCodeKind where
  | Button
  | Axis
  | Switch
deriving DecidableEq

/-- The value of `kind as u32` for each `EvCodeKind` variant. -/
def EvCodeKind.discriminant : EvCodeKind → Nat
  | .Button => 0
  | .Axis => 1
  | .Switch => 2

/-- `EvCode`: a kind together with a zero-based index (`index: u32`). -/
structure EvCode where
  kind : EvCodeKind
  index : Nat
deriving DecidableEq

/-- `EvCode::into_u32`: `(self.kind as u32) << 16 | self.index`. -/
def EvCode.into_u32 (c : EvCode) : Nat :=
  (c.kind.discriminant <<< 16) ||| c.index

/-- Modelled from the spec: the event payload type `gilrs_core::EventType`
(declared at the crate root, outside the backend file in the sources):
Connected, Disconnected, ButtonPressed, ButtonReleased and AxisValueChanged
with a signed integer value and an `EvCode`. -/
inductive EventType where
  | Connected
  | Disconnected
  | ButtonPressed (code : EvCode)
  | ButtonReleased (code : EvCode)
  | AxisValueChanged (value : Int) (code : EvCode)
deriving DecidableEq

/-- Truncation of a rational toward zero (the rounding used by Rust float to
integer `as` casts). -/
def ratTrunc (q : ℚ) : Int :=
  if q < 0 then ⌈q⌉ else ⌊q⌋

/-- The Rust cast `as i32` applied to an `f64` value: truncation toward zero,
saturating at the `i32` bounds (the float modelled as an exact rational). -/
def f64_as_i32 (q : ℚ) : Int :=
  max (-(2 ^ 31)) (min (2 ^ 31 - 1) (ratTrunc q))

/-- The Rust cast `as u8` applied to an `f32` value: truncation toward zero,
saturating at the `u8` bounds. -/
def f32_as_u8 (q : ℚ) : Nat :=
  (max 0 (min 255 (ratTrunc q))).toNat

/-- One raw snapshot of a controller (`GamePadReading`): axis samples
(`Vec<f64>`, modelled as rationals), button states, switch positions (the
WinRT `GameControllerSwitchPosition` is an `i32` newtype, modelled as `Int`)
and the sample timestamp. -/
structure GamePadReading where
  axes : List ℚ
  buttons : List Bool
  switches : List Int
  time : Nat
deriving DecidableEq

/-- `GamePadReading::events_from_differences`: the diff engine.  The two
`for` loops (axes first, then buttons) each push at most one event per index,
which is exactly `filterMap` over `range`.  In-bounds vector indexing
`new_reading.axes[index]` is rendered with `getD` (the loop index is always
in bounds); the guards compare `Option` values exactly as
`self.axes.get(index) != new_reading.axes.get(index)` does. -/
def GamePadReading.events_from_differences (self new_reading : GamePadReading) :
    List EventType :=
  ((List.range new_reading.axes.length).filterMap fun index =>
    if self.axes[index]? ≠ new_reading.axes[index]? then
      some (EventType.AxisValueChanged
        (f64_as_i32 ((new_reading.axes.getD index 0 - 1/2) * 2 * 65535))
        ⟨EvCodeKind.Axis, index⟩)
    else none)
  ++ ((List.range new_reading.buttons.length).filterMap fun index =>
    if self.buttons[index]? ≠ new_reading.buttons[index]? then
      some (match new_reading.buttons.getD index false with
        | true => EventType.ButtonPressed ⟨EvCodeKind.Button, index⟩
        | false => EventType.ButtonReleased ⟨EvCodeKind.Button, index⟩)
    else none)

/-- Modelled from the spec: `gilrs_core::PowerInfo` (crate root): power
status classification. -/
inductive PowerInfo where
  | Unknown
  | Wired
  | Discharging (pc : Nat)
  | Charging (pc : Nat)
  | Charged
deriving DecidableEq

/-- The WinRT `BatteryStatus` is an `i32` newtype; the named constants below
carry the values from the `windows` crate. -/
abbrev BatteryStatus := Int

def BatteryStatus.NotPresent : BatteryStatus := 0

def BatteryStatus.Discharging : BatteryStatus := 1

def BatteryStatus.Idle : BatteryStatus := 2

def BatteryStatus.Charging : BatteryStatus := 3

/-- The WinRT `BatteryReport` handle: its three getters used by the backend,
each fallible.  (`FullChargeCapacityInMilliwattHours()?.GetInt32()?` is a
pair of fallible steps in the source; the model collapses the two into one
`Option`.) -/
structure BatteryReport where
  status : Option BatteryStatus
  fullChargeCapacityInMilliwattHours : Option Int
  remainingCapacityInMilliwattHours : Option Int
deriving DecidableEq

/-- A marker for the WinRT mapped-gamepad handle `Windows.Gaming.Input.Gamepad`
(the backend only tests its presence and passes it along). -/
structure WgiGamepad where
deriving DecidableEq

/-- Model of the WinRT `RawGameController` handle: every fallible getter used
by the backend becomes an `Option` field; `forceFeedbackMotors` models the
`ForceFeedbackMotors()` vector when the call succeeds. -/
structure RawGameController where
  nonRoamableId : Option String
  isWireless : Option Bool
  hardwareVendorId : Option Nat
  hardwareProductId : Option Nat
  displayName : Option String
  axisCount : Nat
  buttonCount : Nat
  switchCount : Nat
  hasWgiGamepadMapping : Bool
  forceFeedbackMotors : Option (List Unit)
  tryGetBatteryReport : Option BatteryReport
deriving DecidableEq

def SDL_HARDWARE_BUS_USB : Nat := 0x03

def SDL_HARDWARE_BUS_BLUETOOTH : Nat := 0x05

/-- `u16::to_be` on the little-endian Windows targets: swap the two bytes. -/
def u16_to_be (x : Nat) : Nat :=
  (x % 256) * 256 + (x / 256) % 256

/-- `u32::to_be` on the little-endian Windows targets: reverse the four
bytes. -/
def u32_to_be (x : Nat) : Nat :=
  (x % 256) * 2 ^ 24 + ((x / 2 ^ 8) % 256) * 2 ^ 16
    + ((x / 2 ^ 16) % 256) * 2 ^ 8 + (x / 2 ^ 24) % 256

/-- The big-endian bytes of a `u32` value. -/
def u32_be_bytes (x : Nat) : List Nat :=
  [(x / 2 ^ 24) % 256, (x / 2 ^ 16) % 256, (x / 2 ^ 8) % 256, x % 256]

/-- The big-endian bytes of a `u16` value. -/
def u16_be_bytes (x : Nat) : List Nat :=
  [(x / 2 ^ 8) % 256, x % 256]

/-- `Uuid::from_fields` from the `uuid` crate (external dependency): the 16
bytes of the UUID are `d1`, `d2`, `d3` stored big-endian followed by the 8
bytes of `d4`. -/
def Uuid.from_fields (d1 d2 d3 : Nat) (d4 : List Nat) : List Nat :=
  u32_be_bytes d1 ++ u16_be_bytes d2 ++ u16_be_bytes d3 ++ d4

/-- The per-controller descriptor `Gamepad` (uuid held as its 16 bytes). -/
structure Gamepad where
  id : Nat
  name : String
  uuid : List Nat
  is_connected : Bool
  raw_game_controller : RawGameController
  non_roamable_id : String
  wgi_gamepad : Option WgiGamepad
  axes : List EvCode
  buttons : List EvCode
deriving DecidableEq

/-- The button list built by `Gamepad::collect_axes_and_buttons`. -/
def Gamepad.collect_buttons (c : RawGameController) : List EvCode :=
  (List.range c.buttonCount).map fun index => ⟨EvCodeKind.Button, index⟩

/-- The axis list built by `Gamepad::collect_axes_and_buttons`. -/
def Gamepad.collect_axes (c : RawGameController) : List EvCode :=
  (List.range c.axisCount).map fun index => ⟨EvCodeKind.Axis, index⟩

/-- `Gamepad::new`.  The source unwraps `NonRoamableId()` (a panic on error);
the model totalizes that unwrap with `getD ""` and the theorems about device
identity assume the call succeeds.  `version` is the literal `0` of the
source. -/
def Gamepad.new (id : Nat) (raw_game_controller : RawGameController) : Gamepad :=
  let is_connected := true
  let non_roamable_id := raw_game_controller.nonRoamableId.getD ""
  let wgi_gamepad : Option WgiGamepad :=
    if raw_game_controller.hasWgiGamepadMapping then some ⟨⟩ else none
  let name :=
    match raw_game_controller.displayName with
    | some s => s
    | none => "unknown"
  let bustype :=
    u32_to_be (match raw_game_controller.isWireless with
      | some true => SDL_HARDWARE_BUS_BLUETOOTH
      | _ => SDL_HARDWARE_BUS_USB)
  let vendor_id := u16_to_be (raw_game_controller.hardwareVendorId.getD 0)
  let product_id := u16_to_be (raw_game_controller.hardwareProductId.getD 0)
  let version := 0
  let uuid := Uuid.from_fields bustype vendor_id 0
    [(product_id >>> 8) % 256, product_id % 256, 0, 0,
     (version >>> 8) % 256, version % 256, 0, 0]
  { id, name, uuid, is_connected, raw_game_controller, non_roamable_id,
    wgi_gamepad,
    axes := Gamepad.collect_axes raw_game_controller,
    buttons := Gamepad.collect_buttons raw_game_controller }

/-- Modelled from the spec: `gilrs_core::AxisInfo` (crate root): the integer
range and optional deadzone declared for an axis. -/
structure AxisInfo where
  min : Int
  max : Int
  deadzone : Option Nat
deriving DecidableEq

/-- `Gamepad::axis_info`: always
`Some(AxisInfo { min: i16::MIN as i32, max: i16::MAX as i32, deadzone: None })`. -/
def Gamepad.axis_info (_g : Gamepad) (_nec : EvCode) : Option AxisInfo :=
  some { min := -32768, max := 32767, deadzone := none }

/-- `Gamepad::power_info_err`: the fallible classification.  (In the source
the division `remaining / full` is done in `f32`; it is modelled exactly over
`ℚ`.  Lean evaluates `x / 0` to `0`, so a zero `full` capacity yields
percent `0` where `f32` would give `255` from infinity or `0` from NaN; both
sides fall in the same constructor.) -/
def Gamepad.power_info_err (g : Gamepad) : Option PowerInfo := do
  let wireless ← g.raw_game_controller.isWireless
  if !wireless then
    return PowerInfo.Wired
  let report ← g.raw_game_controller.tryGetBatteryReport
  let status ← report.status
  if status = BatteryStatus.Discharging ∨ status = BatteryStatus.Charging then
    let full ← report.fullChargeCapacityInMilliwattHours
    let remaining ← report.remainingCapacityInMilliwattHours
    let percent := f32_as_u8 ((remaining : ℚ) / (full : ℚ) * 100)
    if percent = 100 then
      return PowerInfo.Charged
    else if status = BatteryStatus.Discharging then
      return PowerInfo.Discharging percent
    else
      return PowerInfo.Charging percent
  else if status = BatteryStatus.NotPresent then
    return PowerInfo.Wired
  else if status = BatteryStatus.Idle then
    return PowerInfo.Charged
  else
    return PowerInfo.Unknown

/-- `Gamepad::power_info`: `self.power_info_err().unwrap_or(PowerInfo::Unknown)`. -/
def Gamepad.power_info (g : Gamepad) : PowerInfo :=
  g.power_info_err.getD PowerInfo.Unknown

/-- `Gamepad::is_ff_supported`: the mapped-gamepad handle is present and
`ForceFeedbackMotors()` succeeds (the source maps the motor list to
`motors.First()` and only tests `is_some`, so the `First()` result itself is
discarded). -/
def Gamepad.is_ff_supported (g : Gamepad) : Bool :=
  g.wgi_gamepad.isSome
    && (g.raw_game_controller.forceFeedbackMotors.map fun motors =>
          motors.head?).isSome

/-- Modelled from the spec: the force-feedback device handle `super::FfDevice`
(defined in the backend's ff module, absent from the sources here); per the
spec it wraps the possibly-absent mapped-gamepad handle, keyed by the gamepad
id. -/
structure FfDevice where
  id : Nat
  wgi_gamepad : Option WgiGamepad
deriving DecidableEq

/-- Modelled from the spec: `FfDevice::new(id, wgi_gamepad)`. -/
def FfDevice.new (id : Nat) (wgi_gamepad : Option WgiGamepad) : FfDevice :=
  { id, wgi_gamepad }

/-- `Gamepad::ff_device`: `Some(FfDevice::new(self.id, self.wgi_gamepad.clone()))`. -/
def Gamepad.ff_device (g : Gamepad) : Option FfDevice :=
  some (FfDevice.new g.id g.wgi_gamepad)

/-- `WgiEvent`: an event still tagged with the raw controller handle. -/
structure WgiEvent where
  raw_game_controller : RawGameController
  event : EventType
  time : Nat

/-- `gilrs_core::Event` (crate root): session id, payload, timestamp. -/
structure Event where
  id : Nat
  event : EventType
  time : Nat
deriving DecidableEq

/-- The session state of `Gilrs`: the descriptor table.  (The receiver half
of the mpsc channel is the external event source; `next_event` below takes
the result of `rx.try_recv().ok()` as an argument.) -/
structure Gilrs where
  gamepads : List Gamepad
deriving DecidableEq

/-- Rust `Iterator::position`: index of the first element satisfying the
predicate. -/
def position {α : Type} (p : α → Bool) : List α → Option Nat
  | [] => none
  | a :: l => if p a then some 0 else (position p l).map (· + 1)

/-- The predicate of the `position` scan inside `Gilrs::next_event`:
`match wgi_event.raw_game_controller.NonRoamableId() { Ok(id) => id == gamepad.non_roamable_id, _ => false }`. -/
def matchesController (c : RawGameController) (g : Gamepad) : Bool :=
  match c.nonRoamableId with
  | some i => i == g.non_roamable_id
  | none => false

/-- The in-place mutation `self.gamepads[id].is_connected = b`. -/
def setConnected : List Gamepad → Nat → Bool → List Gamepad
  | [], _, _ => []
  | g :: gs, 0, b => { g with is_connected := b } :: gs
  | g :: gs, Nat.succ n, b => g :: setConnected gs n b

/-- `Gilrs::next_event` applied to the result of `rx.try_recv().ok()`:
resolve the session id by scanning for the controller's persistent id,
appending a freshly built descriptor when no entry matches
(`unwrap_or_else` pushes and uses `len - 1`), then flip the matching
descriptor's connection flag on Connected/Disconnected. -/
def Gilrs.next_event (s : Gilrs) (received : Option WgiEvent) : Option Event × Gilrs :=
  match received with
  | none => (none, s)
  | some wgi_event =>
    let idAndTable :=
      match position (matchesController wgi_event.raw_game_controller) s.gamepads with
      | some i => (i, s.gamepads)
      | none =>
        (s.gamepads.length,
         s.gamepads ++ [Gamepad.new s.gamepads.length wgi_event.raw_game_controller])
    let id := idAndTable.1
    let gamepads :=
      match wgi_event.event with
      | EventType.Connected => setConnected idAndTable.2 id true
      | EventType.Disconnected => setConnected idAndTable.2 id false
      | _ => idAndTable.2
    (some { id, event := wgi_event.event, time := wgi_event.time }, { gamepads })

/-- `Gilrs::gamepad`. -/
def Gilrs.gamepad (s : Gilrs) (id : Nat) : Option Gamepad :=
  s.gamepads[id]?

/-- `Gilrs::last_gamepad_hint`. -/
def Gilrs.last_gamepad_hint (s : Gilrs) : Nat :=
  s.gamepads.length

/- Claim-side definitions: these follow the specification's wording (not the
source) and exist to be compared against the definitions above. -/

/-- The axis remap exactly as the specification words it:
`round((x − 0.5) × 2 × AXIS_SCALE)` with `AXIS_SCALE = i16::MAX = 32767`,
the maximum of the range declared by `axis_info`. -/
def claimedAxisValue (x : ℚ) : Int :=
  round ((x - 1/2) * 2 * 32767)

/-- The fingerprint layout exactly as the specification words it: four
big-endian fields (bus type, vendor id, zero, then the 8-byte tail with the
product-id high byte first and version `0`). -/
def claimedFingerprint (wireless : Bool) (vendor_id product_id : Nat) : List Nat :=
  u32_be_bytes (if wireless then SDL_HARDWARE_BUS_BLUETOOTH else SDL_HARDWARE_BUS_USB)
    ++ u16_be_bytes vendor_id ++ u16_be_bytes 0
    ++ [(product_id / 2 ^ 8) % 256, product_id % 256, 0, 0, 0, 0, 0, 0]

/-- Decoding a kind discriminant, inverse to `EvCodeKind.discriminant`. -/
def EvCodeKind.of_discriminant : Nat → Option EvCodeKind
  | 0 => some .Button
  | 1 => some .Axis
  | 2 => some .Switch
  | _ => none

/-- Unpacking the 32-bit wire form as the specification describes it: high
16 bits give the kind, low 16 bits give the index. -/
def unpack_u32 (u : Nat) : Option EvCode :=
  (EvCodeKind.of_discriminant (u >>> 16)).map fun kind => ⟨kind, u &&& 0xFFFF⟩

/-- The power states the claim allows for a wireless controller. -/
def claimedWirelessPowerSet : PowerInfo → Bool
  | PowerInfo.Charged => true
  | PowerInfo.Charging _ => true
  | PowerInfo.Discharging _ => true
  | PowerInfo.Unknown => true
  | _ => false

/-- A concrete wired controller used to evaluate the model. -/
def testControllerA : RawGameController :=
  { nonRoamableId := some "x", isWireless := some false,
    hardwareVendorId := some 0x1234, hardwareProductId := some 0xABCD,
    displayName := some "pad", axisCount := 1, buttonCount := 2,
    switchCount := 0, hasWgiGamepadMapping := false,
    forceFeedbackMotors := none, tryGetBatteryReport := none }

/-- A concrete wireless controller whose battery reports `NotPresent`. -/
def wirelessNoBattCtrl : RawGameController :=
  { nonRoamableId := some "w", isWireless := some true,
    hardwareVendorId := some 1, hardwareProductId := some 1,
    displayName := some "pad", axisCount := 0, buttonCount := 0,
    switchCount := 0, hasWgiGamepadMapping := false,
    forceFeedbackMotors := none,
    tryGetBatteryReport := some
      { status := some BatteryStatus.NotPresent,
        fullChargeCapacityInMilliwattHours := none,
        remainingCapacityInMilliwattHours := none } }

/-- Whether an event is `AxisValueChanged` with code `(Axis, i)` (any value). -/
def EventType.isAxisChangedAt (i : Nat) : EventType → Bool
  | EventType.AxisValueChanged _ c => decide (c.kind = EvCodeKind.Axis ∧ c.index = i)
  | _ => false

/-- The group of a diff event in the claimed output order: axis events first
(group 0), button events second (group 1). -/
def eventGroup : EventType → Nat
  | EventType.AxisValueChanged _ _ => 0
  | _ => 1

/-- The index carried by a diff event's code. -/
def eventIndex : EventType → Nat
  | EventType.AxisValueChanged _ c => c.index
  | EventType.ButtonPressed c => c.index
  | EventType.ButtonReleased c => c.index
  | _ => 0

/-- The output order the claim describes: all axis events before all button
events, and increasing index within each group. -/
def eventBefore (a b : EventType) : Prop :=
  eventGroup a < eventGroup b ∨ (eventGroup a = eventGroup b ∧ eventIndex a < eventIndex b)

lemma into_u32_eq (c : EvCode) (h : c.index < 65536) :
    c.into_u32 = c.kind.discriminant * 65536 + c.index := by
  have h2 : c.index < 2 ^ 16 := by omega
  unfold EvCode.into_u32
  rw [Nat.shiftLeft_eq, Nat.mul_comm, ← Nat.mul_add_lt_is_or h2, Nat.mul_comm]

/-- C1 (counterexample): with `old.axes = [0.0]`, `new.axes = [1.0]` the diff
engine emits value `65535`, but the claimed formula gives
`round((1 − 0.5) × 2 × 32767) = 32767`; and with `new.axes = [0.75]` it emits
`32767` while rounding (even at the code's scale `u16::MAX`) would give
`32768`, so the conversion truncates rather than rounds. -/
theorem axis_value_formula_cex :
    GamePadReading.events_from_differences ⟨[0], [], [], 0⟩ ⟨[1], [], [], 1⟩
        = [EventType.AxisValueChanged 65535 ⟨EvCodeKind.Axis, 0⟩]
    ∧ claimedAxisValue 1 = 32767
    ∧ (65535 : Int) ≠ 32767
    ∧ GamePadReading.events_from_differences ⟨[0], [], [], 0⟩ ⟨[3/4], [], [], 1⟩
        = [EventType.AxisValueChanged 32767 ⟨EvCodeKind.Axis, 0⟩]
    ∧ round (((3 : ℚ)/4 - 1/2) * 2 * 65535) = 32768
    ∧ (32767 : Int) ≠ 32768 := by
  refine ⟨?_, ?_, by decide, ?_, ?_, by decide⟩
  · norm_num [GamePadReading.events_from_differences, List.range, List.range.loop,
      f64_as_i32, ratTrunc, List.filterMap_cons, List.getD]
  · rw [claimedAxisValue, round_eq]; norm_num
  · norm_num [GamePadReading.events_from_differences, List.range, List.range.loop,
      f64_as_i32, ratTrunc, List.filterMap_cons, List.getD]
  · rw [round_eq]; norm_num

/-- C1 (amended): for snapshots of equal shape and an axis index whose value
changed, the diff engine emits `AxisValueChanged` with code `(Axis, i)` and
integer value `(new.axes[i] − 0.5) × 2 × u16::MAX` truncated toward zero
(the Rust `as i32` cast), not the rounded `i16::MAX`-scaled value. -/
theorem axis_value_formula (old nw : GamePadReading)
    (hax : old.axes.length = nw.axes.length) (i : Nat)
    (hne : old.axes[i]? ≠ nw.axes[i]?) :
    EventType.AxisValueChanged (f64_as_i32 ((nw.axes.getD i 0 - 1/2) * 2 * 65535))
        ⟨EvCodeKind.Axis, i⟩ ∈ old.events_from_differences nw := by
  have hi : i < nw.axes.length := by
    by_contra hlt
    push_neg at hlt
    have h1 : old.axes[i]? = none := List.getElem?_eq_none (by omega)
    have h2 : nw.axes[i]? = none := List.getElem?_eq_none hlt
    exact hne (h1.trans h2.symm)
  unfold GamePadReading.events_from_differences
  refine List.mem_append_left _ ?_
  rw [List.mem_filterMap]
  exact ⟨i, List.mem_range.mpr hi, by rw [if_pos hne]⟩

/-- C1 (witness): the amended theorem applied at `old.axes = [0.0]`,
`new.axes = [1.0]`, index `0`. -/
theorem axis_value_formula_witness :
    EventType.AxisValueChanged (f64_as_i32 (((1 : ℚ) - 1/2) * 2 * 65535))
        ⟨EvCodeKind.Axis, 0⟩
      ∈ GamePadReading.events_from_differences ⟨[0], [], [], 0⟩ ⟨[1], [], [], 1⟩ :=
  axis_value_formula ⟨[0], [], [], 0⟩ ⟨[1], [], [], 1⟩ rfl 0 (by simp)

/-- C3: for every kind and every index up to 65535, `EvCode::into_u32` puts
the kind discriminant in the high 16 bits and the index in the low 16 bits,
and unpacking recovers the original kind and index exactly. -/
theorem evcode_pack_roundtrip (kind : EvCodeKind) (index : Nat)
    (h : index ≤ 65535) :
    EvCode.into_u32 ⟨kind, index⟩ >>> 16 = kind.discriminant
    ∧ EvCode.into_u32 ⟨kind, index⟩ &&& 0xFFFF = index
    ∧ unpack_u32 (EvCode.into_u32 ⟨kind, index⟩) = some ⟨kind, index⟩ := by
  have hb : index < 65536 := by omega
  have he : EvCode.into_u32 ⟨kind, index⟩ = kind.discriminant * 65536 + index :=
    into_u32_eq ⟨kind, index⟩ hb
  have hs : EvCode.into_u32 ⟨kind, index⟩ >>> 16 = kind.discriminant := by
    rw [he, Nat.shiftRight_eq_div_pow]
    have : (2 : Nat) ^ 16 = 65536 := by norm_num
    rw [this]
    omega
  have hmask : (0xFFFF : Nat) = 2 ^ 16 - 1 := by norm_num
  have ha : EvCode.into_u32 ⟨kind, index⟩ &&& 0xFFFF = index := by
    rw [he, hmask, Nat.and_pow_two_sub_one_eq_mod]
    have : (2 : Nat) ^ 16 = 65536 := by norm_num
    rw [this]
    omega
  refine ⟨hs, ha, ?_⟩
  unfold unpack_u32
  rw [hs, ha]
  cases kind <;> rfl

/-- C3 (witness): the round trip at `(Axis, 7)`. -/
theorem evcode_pack_roundtrip_witness :
    (7 : Nat) ≤ 65535
    ∧ unpack_u32 (EvCode.into_u32 ⟨EvCodeKind.Axis, 7⟩)
        = some ⟨EvCodeKind.Axis, 7⟩ :=
  ⟨by decide, (evcode_pack_roundtrip EvCodeKind.Axis 7 (by decide)).2.2⟩

/-- C10: `ff_device` always returns `Some`, wrapping the possibly-absent
mapped-gamepad handle, regardless of `is_ff_supported`. -/
theorem ff_device_always_some (g : Gamepad) :
    g.ff_device.isSome = true
    ∧ g.ff_device = some (FfDevice.new g.id g.wgi_gamepad) :=
  ⟨rfl, rfl⟩

/-- C8 (code bug): for the in-range raw sample `1.0` (old value `0.0`), the
diff engine emits integer value `65535`, which exceeds the maximum `32767`
(`i16::MAX`) that `axis_info` declares for every axis. -/
theorem axis_value_exceeds_declared_range :
    GamePadReading.events_from_differences ⟨[0], [], [], 0⟩ ⟨[1], [], [], 1⟩
        = [EventType.AxisValueChanged 65535 ⟨EvCodeKind.Axis, 0⟩]
    ∧ ((Gamepad.new 0 testControllerA).axis_info ⟨EvCodeKind.Axis, 0⟩).map AxisInfo.max
        = some 32767
    ∧ ((Gamepad.new 0 testControllerA).axis_info ⟨EvCodeKind.Axis, 0⟩).map AxisInfo.min
        = some (-32768)
    ∧ ¬ ((65535 : Int) ≤ 32767)
    ∧ (0 : ℚ) ≤ 1 ∧ (1 : ℚ) ≤ 1 := by
  refine ⟨?_, by decide, by decide, by decide, by norm_num, by norm_num⟩
  norm_num [GamePadReading.events_from_differences, List.range, List.range.loop,
    f64_as_i32, ratTrunc, List.filterMap_cons, List.getD]

/-- C2 (counterexample): at wireless = false, vendor id `0x1234`, product id
`0xABCD`, the constructed fingerprint stores its fields little-endian
(`[03 00 00 00 | 34 12 | 00 00 | CD AB ...]`), not in the big-endian layout
the claim describes. -/
theorem fingerprint_not_big_endian :
    (Gamepad.new 0 testControllerA).uuid
        = [0x03, 0, 0, 0, 0x34, 0x12, 0, 0, 0xCD, 0xAB, 0, 0, 0, 0, 0, 0]
    ∧ claimedFingerprint false 0x1234 0xABCD
        = [0, 0, 0, 0x03, 0x12, 0x34, 0, 0, 0xAB, 0xCD, 0, 0, 0, 0, 0, 0]
    ∧ (Gamepad.new 0 testControllerA).uuid
        ≠ claimedFingerprint false 0x1234 0xABCD := by
  refine ⟨by decide, by decide, by decide⟩

lemma u16_swap_bytes (v : Nat) (h : v < 65536) :
    u16_be_bytes (u16_to_be v) = [v % 256, v / 256] := by
  unfold u16_be_bytes u16_to_be
  have h0 : (2 : Nat) ^ 8 = 256 := by norm_num
  rw [h0]
  have h1 : v / 256 % 256 = v / 256 := by omega
  rw [h1]
  have h2 : (v % 256 * 256 + v / 256) / 256 = v % 256 := by omega
  have h3 : (v % 256 * 256 + v / 256) % 256 = v / 256 := by omega
  rw [h2, h3]
  have h4 : v % 256 % 256 = v % 256 := by omega
  rw [h4]

lemma u16_to_be_shift (p : Nat) (h : p < 65536) :
    (u16_to_be p >>> 8) % 256 = p % 256 := by
  unfold u16_to_be
  rw [Nat.shiftRight_eq_div_pow]
  have h0 : (2 : Nat) ^ 8 = 256 := by norm_num
  rw [h0]
  have h1 : p / 256 % 256 = p / 256 := by omega
  rw [h1]
  have h2 : (p % 256 * 256 + p / 256) / 256 = p % 256 := by omega
  rw [h2]
  omega

lemma u16_to_be_mod (p : Nat) (h : p < 65536) :
    u16_to_be p % 256 = p / 256 := by
  unfold u16_to_be
  omega

/-- C2 (amended): the fingerprint is 16 bytes holding the bus-type code,
vendor id and product id in little-endian byte order (matching the SDL
controller-database GUID convention on a little-endian host): bus type as a
32-bit little-endian field, vendor id as a 16-bit little-endian field, a zero
field, then the tail `{pid low, pid high, 0, 0, version low, version high,
0, 0}` with version fixed at 0; and construction is deterministic in
(wireless flag, vendor id, product id). -/
theorem fingerprint_layout_le (c c2 : RawGameController) (id id2 : Nat)
    (w : Bool) (v p : Nat)
    (hw : c.isWireless = some w) (hv : c.hardwareVendorId = some v)
    (hp : c.hardwareProductId = some p) (hvb : v < 65536) (hpb : p < 65536) :
    (Gamepad.new id c).uuid
      = [if w then 0x05 else 0x03, 0, 0, 0, v % 256, v / 256, 0, 0,
         p % 256, p / 256, 0, 0, 0, 0, 0, 0]
    ∧ (c2.isWireless = c.isWireless → c2.hardwareVendorId = c.hardwareVendorId →
       c2.hardwareProductId = c.hardwareProductId →
       (Gamepad.new id2 c2).uuid = (Gamepad.new id c).uuid) := by
  constructor
  · simp only [Gamepad.new, Uuid.from_fields, hw, hv, hp, Option.getD_some]
    rw [u16_swap_bytes v hvb, u16_to_be_shift p hpb, u16_to_be_mod p hpb]
    cases w <;>
      norm_num [u32_be_bytes, u32_to_be, u16_be_bytes,
        SDL_HARDWARE_BUS_USB, SDL_HARDWARE_BUS_BLUETOOTH]
  · intro h1 h2 h3
    simp only [Gamepad.new, Uuid.from_fields, h1, h2, h3]

/-- C2 (witness): the amended layout at wireless = false, vendor `0x1234`,
product `0xABCD`. -/
theorem fingerprint_layout_le_witness :
    (Gamepad.new 0 testControllerA).uuid
      = [if false then 0x05 else 0x03, 0, 0, 0, 0x1234 % 256, 0x1234 / 256, 0, 0,
         0xABCD % 256, 0xABCD / 256, 0, 0, 0, 0, 0, 0] :=
  (fingerprint_layout_le testControllerA testControllerA 0 0 false 0x1234 0xABCD
    rfl rfl rfl (by decide) (by decide)).1

/-- C9 (counterexample): a wireless controller whose battery status is
`NotPresent` gets power info `Wired`, which is outside the claim's
enumeration {Charged, Charging, Discharging, Unknown}. -/
theorem power_info_wireless_cex :
    (Gamepad.new 0 wirelessNoBattCtrl).raw_game_controller.isWireless = some true
    ∧ (Gamepad.new 0 wirelessNoBattCtrl).power_info = PowerInfo.Wired
    ∧ claimedWirelessPowerSet (Gamepad.new 0 wirelessNoBattCtrl).power_info = false := by
  refine ⟨by decide, by decide, by decide⟩

/-- C9 (amended): `power_info` is total (it never propagates an error): a
non-wireless controller yields `Wired`; every query failure underneath is
swallowed into `Unknown`; a wireless controller with battery status
`NotPresent` yields `Wired` and with status `Idle` yields `Charged`; and the
result is always one of Wired, Charged, Charging, Discharging, Unknown. -/
theorem power_info_classification (g : Gamepad) :
    (g.raw_game_controller.isWireless = some false → g.power_info = PowerInfo.Wired)
    ∧ (g.power_info_err = none → g.power_info = PowerInfo.Unknown)
    ∧ (∀ report, g.raw_game_controller.isWireless = some true →
        g.raw_game_controller.tryGetBatteryReport = some report →
        report.status = some BatteryStatus.NotPresent →
        g.power_info = PowerInfo.Wired)
    ∧ (∀ report, g.raw_game_controller.isWireless = some true →
        g.raw_game_controller.tryGetBatteryReport = some report →
        report.status = some BatteryStatus.Idle →
        g.power_info = PowerInfo.Charged)
    ∧ (g.power_info = PowerInfo.Wired ∨ g.power_info = PowerInfo.Charged
        ∨ (∃ pc, g.power_info = PowerInfo.Charging pc)
        ∨ (∃ pc, g.power_info = PowerInfo.Discharging pc)
        ∨ g.power_info = PowerInfo.Unknown) := by
  refine ⟨?_, ?_, ?_, ?_, ?_⟩
  · intro h
    simp [Gamepad.power_info, Gamepad.power_info_err, h]
  · intro h
    simp [Gamepad.power_info, h]
  · intro report h hr hs
    simp [Gamepad.power_info, Gamepad.power_info_err, h, hr, hs,
      BatteryStatus.NotPresent, BatteryStatus.Discharging,
      BatteryStatus.Charging, BatteryStatus.Idle]
  · intro report h hr hs
    simp [Gamepad.power_info, Gamepad.power_info_err, h, hr, hs,
      BatteryStatus.NotPresent, BatteryStatus.Discharging,
      BatteryStatus.Charging, BatteryStatus.Idle]
  · cases hgp : g.power_info <;> simp [hgp]

/-- C9 (witness): the amended classification applied to a wired
controller. -/
theorem power_info_classification_witness :
    (Gamepad.new 0 testControllerA).power_info = PowerInfo.Wired :=
  (power_info_classification (Gamepad.new 0 testControllerA)).1 rfl

lemma countP_range_single (n i : Nat) (q : Nat → Bool)
    (hq : ∀ j, q j = true → j = i) :
    (List.range n).countP q = if i < n ∧ q i = true then 1 else 0 := by
  induction n with
  | zero => simp
  | succ n ih =>
    rw [List.range_succ, List.countP_append, ih]
    have hsing : List.countP q [n] = if q n = true then 1 else 0 := by
      simp [List.countP_cons]
    rw [hsing]
    by_cases hn : q n = true
    · have hni : n = i := hq n hn
      subst hni
      simp only [hn, and_true]
      split_ifs <;> omega
    · have hne2 : q n = false := by revert hn; cases q n <;> simp
      rw [hne2]
      simp only [Bool.false_eq_true, if_false, Nat.add_zero]
      by_cases hqi : q i = true
      · have hni : i ≠ n := fun h => hn (h ▸ hqi)
        simp only [hqi, and_true]
        split_ifs <;> omega
      · simp [hqi]

lemma mem_button_half (old nw : GamePadReading) (e : EventType)
    (he : e ∈ (List.range nw.buttons.length).filterMap fun index =>
      if old.buttons[index]? ≠ nw.buttons[index]? then
        some (match nw.buttons.getD index false with
          | true => EventType.ButtonPressed ⟨EvCodeKind.Button, index⟩
          | false => EventType.ButtonReleased ⟨EvCodeKind.Button, index⟩)
      else none) :
    ∃ j, j < nw.buttons.length
      ∧ (e = EventType.ButtonPressed ⟨EvCodeKind.Button, j⟩
        ∨ e = EventType.ButtonReleased ⟨EvCodeKind.Button, j⟩) := by
  rw [List.mem_filterMap] at he
  obtain ⟨j, hj, hfe⟩ := he
  rw [List.mem_range] at hj
  refine ⟨j, hj, ?_⟩
  by_cases hc : old.buttons[j]? ≠ nw.buttons[j]?
  · rw [if_pos hc] at hfe
    cases hb : nw.buttons.getD j false <;> rw [hb] at hfe <;>
      simp only [Option.some.injEq] at hfe
    · exact Or.inr hfe.symm
    · exact Or.inl hfe.symm
  · rw [if_neg hc] at hfe
    exact absurd hfe (by simp)

lemma mem_axis_half (old nw : GamePadReading) (e : EventType)
    (he : e ∈ (List.range nw.axes.length).filterMap fun index =>
      if old.axes[index]? ≠ nw.axes[index]? then
        some (EventType.AxisValueChanged
          (f64_as_i32 ((nw.axes.getD index 0 - 1/2) * 2 * 65535))
          ⟨EvCodeKind.Axis, index⟩)
      else none) :
    ∃ j v, j < nw.axes.length
      ∧ e = EventType.AxisValueChanged v ⟨EvCodeKind.Axis, j⟩ := by
  rw [List.mem_filterMap] at he
  obtain ⟨j, hj, hfe⟩ := he
  rw [List.mem_range] at hj
  by_cases hc : old.axes[j]? ≠ nw.axes[j]?
  · rw [if_pos hc] at hfe
    simp only [Option.some.injEq] at hfe
    exact ⟨j, _, hj, hfe.symm⟩
  · rw [if_neg hc] at hfe
    exact absurd hfe (by simp)

lemma axis_countP (old nw : GamePadReading) (i : Nat) :
    (old.events_from_differences nw).countP (EventType.isAxisChangedAt i)
      = if i < nw.axes.length ∧ old.axes[i]? ≠ nw.axes[i]? then 1 else 0 := by
  unfold GamePadReading.events_from_differences
  rw [List.countP_append]
  have hbtn : ((List.range nw.buttons.length).filterMap fun index =>
      if old.buttons[index]? ≠ nw.buttons[index]? then
        some (match nw.buttons.getD index false with
          | true => EventType.ButtonPressed ⟨EvCodeKind.Button, index⟩
          | false => EventType.ButtonReleased ⟨EvCodeKind.Button, index⟩)
      else none).countP (EventType.isAxisChangedAt i) = 0 := by
    rw [List.countP_eq_zero]
    intro e he
    obtain ⟨j, _, hj⟩ := mem_button_half old nw e he
    rcases hj with h | h <;> subst h <;> simp [EventType.isAxisChangedAt]
  rw [hbtn, Nat.add_zero, List.countP_filterMap]
  have hfun : (fun index => (Option.map (EventType.isAxisChangedAt i)
        (if old.axes[index]? ≠ nw.axes[index]? then
          some (EventType.AxisValueChanged
            (f64_as_i32 ((nw.axes.getD index 0 - 1/2) * 2 * 65535))
            ⟨EvCodeKind.Axis, index⟩)
        else none)).getD false)
      = fun index =>
          if old.axes[index]? ≠ nw.axes[index]? then decide (index = i) else false := by
    funext j
    by_cases hc : old.axes[j]? ≠ nw.axes[j]?
    · simp [hc, EventType.isAxisChangedAt]
    · simp [hc]
  rw [hfun]
  rw [countP_range_single nw.axes.length i _ ?_]
  · by_cases hc : old.axes[i]? ≠ nw.axes[i]?
    · simp [hc]
    · simp [hc]
  · intro j hj
    by_cases hc : old.axes[j]? ≠ nw.axes[j]?
    · rw [if_pos hc] at hj
      exact of_decide_eq_true hj
    · rw [if_neg hc] at hj
      exact absurd hj (by simp)

lemma pairwise_filterMap_of {α β : Type} (f : α → Option β)
    {R : α → α → Prop} {S : β → β → Prop}
    (hf : ∀ a b a2 b2, R a b → f a = some a2 → f b = some b2 → S a2 b2) :
    ∀ l : List α, l.Pairwise R → (l.filterMap f).Pairwise S := by
  intro l hl
  induction hl with
  | nil => simp
  | @cons a l ha _ ih =>
    rw [List.filterMap_cons]
    cases hfa : f a with
    | none => exact ih
    | some b =>
      refine List.Pairwise.cons ?_ ih
      intro y hy
      rw [List.mem_filterMap] at hy
      obtain ⟨x, hx, hfx⟩ := hy
      exact hf a x b y (ha x hx) hfa hfx

lemma diff_output_ordered (old nw : GamePadReading) :
    (old.events_from_differences nw).Pairwise eventBefore := by
  unfold GamePadReading.events_from_differences
  rw [List.pairwise_append]
  refine ⟨?_, ?_, ?_⟩
  · refine pairwise_filterMap_of _ ?_ _ (List.pairwise_lt_range nw.axes.length)
    intro a b a2 b2 hab hfa hfb
    have ha2 : a2 = EventType.AxisValueChanged
        (f64_as_i32 ((nw.axes.getD a 0 - 1/2) * 2 * 65535)) ⟨EvCodeKind.Axis, a⟩ := by
      by_cases hc : old.axes[a]? ≠ nw.axes[a]?
      · rw [if_pos hc] at hfa
        exact (Option.some.injEq _ _ ▸ hfa).symm
      · rw [if_neg hc] at hfa
        exact absurd hfa (by simp)
    have hb2 : b2 = EventType.AxisValueChanged
        (f64_as_i32 ((nw.axes.getD b 0 - 1/2) * 2 * 65535)) ⟨EvCodeKind.Axis, b⟩ := by
      by_cases hc : old.axes[b]? ≠ nw.axes[b]?
      · rw [if_pos hc] at hfb
        exact (Option.some.injEq _ _ ▸ hfb).symm
      · rw [if_neg hc] at hfb
        exact absurd hfb (by simp)
    subst ha2
    subst hb2
    exact Or.inr ⟨rfl, hab⟩
  · refine pairwise_filterMap_of _ ?_ _ (List.pairwise_lt_range nw.buttons.length)
    intro a b a2 b2 hab hfa hfb
    have ha2 : a2 = EventType.ButtonPressed ⟨EvCodeKind.Button, a⟩
        ∨ a2 = EventType.ButtonReleased ⟨EvCodeKind.Button, a⟩ := by
      by_cases hc : old.buttons[a]? ≠ nw.buttons[a]?
      · rw [if_pos hc] at hfa
        cases hb : nw.buttons.getD a false <;> rw [hb] at hfa <;>
          simp only [Option.some.injEq] at hfa
        · exact Or.inr hfa.symm
        · exact Or.inl hfa.symm
      · rw [if_neg hc] at hfa
        exact absurd hfa (by simp)
    have hb2 : b2 = EventType.ButtonPressed ⟨EvCodeKind.Button, b⟩
        ∨ b2 = EventType.ButtonReleased ⟨EvCodeKind.Button, b⟩ := by
      by_cases hc : old.buttons[b]? ≠ nw.buttons[b]?
      · rw [if_pos hc] at hfb
        cases hb : nw.buttons.getD b false <;> rw [hb] at hfb <;>
          simp only [Option.some.injEq] at hfb
        · exact Or.inr hfb.symm
        · exact Or.inl hfb.symm
      · rw [if_neg hc] at hfb
        exact absurd hfb (by simp)
    rcases ha2 with h | h <;> subst h <;> rcases hb2 with h | h <;> subst h <;>
      exact Or.inr ⟨rfl, hab⟩
  · intro a ha b hb
    obtain ⟨j, v, _, ha2⟩ := mem_axis_half old nw a ha
    obtain ⟨k, _, hb2⟩ := mem_button_half old nw b hb
    subst ha2
    rcases hb2 with h | h <;> subst h <;> exact Or.inl (by simp [eventGroup])

/-- C5: for snapshots of equal shape, the diff output carries exactly one
`AxisValueChanged` with code `(Axis, i)` for each axis index whose value
changed, none for unchanged indices, and the output is ordered with all axis
events before all button events, each group in increasing index order. -/
theorem axis_diff_complete_ordered (old nw : GamePadReading)
    (haxes : old.axes.length = nw.axes.length)
    (hbtns : old.buttons.length = nw.buttons.length) :
    (∀ i, (old.events_from_differences nw).countP (EventType.isAxisChangedAt i)
        = if old.axes[i]? ≠ nw.axes[i]? then 1 else 0)
    ∧ (old.events_from_differences nw).Pairwise eventBefore := by
  refine ⟨?_, diff_output_ordered old nw⟩
  intro i
  rw [axis_countP]
  by_cases hi : i < nw.axes.length
  · simp [hi]
  · have h1 : old.axes[i]? = none := List.getElem?_eq_none (by omega)
    have h2 : nw.axes[i]? = none := List.getElem?_eq_none (by omega)
    rw [h1, h2]
    simp [hi]

/-- C5 (witness): the diff of `[0.0]` against `[1.0]` carries exactly one
axis event for index 0 and is ordered. -/
theorem axis_diff_complete_ordered_witness :
    (GamePadReading.events_from_differences ⟨[0], [], [], 0⟩ ⟨[1], [], [], 1⟩).countP
        (EventType.isAxisChangedAt 0) = 1
    ∧ (GamePadReading.events_from_differences ⟨[0], [], [], 0⟩
        ⟨[1], [], [], 1⟩).Pairwise eventBefore := by
  have h := axis_diff_complete_ordered ⟨[0], [], [], 0⟩ ⟨[1], [], [], 1⟩ rfl rfl
  refine ⟨?_, h.2⟩
  have h0 := h.1 0
  simpa using h0

/-- C6: for snapshots of equal shape, a button event for index `i` is in the
diff output iff the button state changed, `ButtonPressed` exactly when the
new state is pressed and `ButtonReleased` exactly when it is released; and
the two concrete examples of the claim produce exactly the claimed outputs. -/
theorem button_diff_iff (old nw : GamePadReading)
    (haxes : old.axes.length = nw.axes.length)
    (hbtns : old.buttons.length = nw.buttons.length) (i : Nat) :
    (EventType.ButtonPressed ⟨EvCodeKind.Button, i⟩ ∈ old.events_from_differences nw
      ↔ old.buttons[i]? ≠ nw.buttons[i]? ∧ nw.buttons[i]? = some true)
    ∧ (EventType.ButtonReleased ⟨EvCodeKind.Button, i⟩ ∈ old.events_from_differences nw
      ↔ old.buttons[i]? ≠ nw.buttons[i]? ∧ nw.buttons[i]? = some false)
    ∧ GamePadReading.events_from_differences ⟨[], [false, true], [], 0⟩ ⟨[], [true, true], [], 1⟩
        = [EventType.ButtonPressed ⟨EvCodeKind.Button, 0⟩]
    ∧ GamePadReading.events_from_differences ⟨[], [true], [], 0⟩ ⟨[], [false], [], 1⟩
        = [EventType.ButtonReleased ⟨EvCodeKind.Button, 0⟩] := by
  have hmain : ∀ (target : Bool),
      ((match target with
        | true => EventType.ButtonPressed ⟨EvCodeKind.Button, i⟩
        | false => EventType.ButtonReleased ⟨EvCodeKind.Button, i⟩)
          ∈ old.events_from_differences nw
        ↔ old.buttons[i]? ≠ nw.buttons[i]? ∧ nw.buttons[i]? = some target) := by
    intro target
    unfold GamePadReading.events_from_differences
    rw [List.mem_append]
    constructor
    · intro h
      rcases h with h | h
      · obtain ⟨j, v, _, hEq⟩ := mem_axis_half old nw _ h
        cases target <;> simp at hEq
      · rw [List.mem_filterMap] at h
        obtain ⟨j, hj, hfe⟩ := h
        rw [List.mem_range] at hj
        by_cases hc : old.buttons[j]? ≠ nw.buttons[j]?
        · rw [if_pos hc] at hfe
          have hjget : nw.buttons[j]? = some (nw.buttons.getD j false) := by
            rw [List.getD_eq_getElem?_getD, List.getElem?_eq_getElem hj]
            rfl
          cases hb : nw.buttons.getD j false <;> rw [hb] at hfe hjget <;> cases target <;>
            simp only [Option.some.injEq] at hfe <;> cases hfe <;> exact ⟨hc, hjget⟩
        · rw [if_neg hc] at hfe
          exact absurd hfe (by simp)
    · rintro ⟨hne, hval⟩
      refine Or.inr ?_
      rw [List.mem_filterMap]
      have hi : i < nw.buttons.length := by
        by_contra hge
        rw [List.getElem?_eq_none (by omega)] at hval
        exact absurd hval (by simp)
      refine ⟨i, List.mem_range.mpr hi, ?_⟩
      rw [if_pos hne]
      have hget : nw.buttons.getD i false = target := by
        rw [List.getD_eq_getElem?_getD, hval]
        rfl
      rw [hget]
  exact ⟨hmain true, hmain false, by decide, by decide⟩

/-- C6 (witness): the characterization applied at the claim's first example
(`old.buttons = [false, true]`, `new.buttons = [true, true]`, index 0). -/
theorem button_diff_iff_witness :
    EventType.ButtonPressed ⟨EvCodeKind.Button, 0⟩
      ∈ GamePadReading.events_from_differences ⟨[], [false, true], [], 0⟩
          ⟨[], [true, true], [], 1⟩ :=
  (button_diff_iff ⟨[], [false, true], [], 0⟩ ⟨[], [true, true], [], 1⟩
    rfl rfl 0).1.mpr (by decide)

lemma getElem?_setConnected : ∀ (l : List Gamepad) (i j : Nat) (b : Bool),
    (setConnected l i b)[j]? =
      if i = j then (l[j]?).map (fun g => { g with is_connected := b }) else l[j]? := by
  intro l
  induction l with
  | nil => intro i j b; simp [setConnected]
  | cons g gs ih =>
    intro i j b
    cases i with
    | zero =>
      cases j with
      | zero => simp [setConnected]
      | succ m => simp [setConnected]
    | succ n =>
      cases j with
      | zero => simp [setConnected]
      | succ m =>
        simp only [setConnected, List.getElem?_cons_succ, ih]
        by_cases h : n = m
        · simp [h]
        · simp [h, fun hh => h (Nat.succ_injective hh)]

lemma position_setConnected (p : Gamepad → Bool)
    (hp : ∀ g b, p { g with is_connected := b } = p g) :
    ∀ (l : List Gamepad) (i : Nat) (b : Bool),
      position p (setConnected l i b) = position p l := by
  intro l
  induction l with
  | nil => intro i b; rfl
  | cons g gs ih =>
    intro i b
    cases i with
    | zero => simp [setConnected, position, hp]
    | succ n => simp [setConnected, position, ih]

lemma position_some (p : Gamepad → Bool) :
    ∀ (l : List Gamepad) (i : Nat), position p l = some i →
      i < l.length ∧ ∃ g, l[i]? = some g ∧ p g = true := by
  intro l
  induction l with
  | nil => intro i h; exact absurd h (by simp [position])
  | cons g gs ih =>
    intro i h
    rw [position] at h
    by_cases hg : p g = true
    · rw [if_pos hg] at h
      cases h
      exact ⟨Nat.succ_pos _, g, by simp, hg⟩
    · rw [if_neg hg] at h
      obtain ⟨i2, hi2, hplus⟩ := Option.map_eq_some'.mp h
      obtain ⟨hlt, g2, hget, hp2⟩ := ih i2 hi2
      subst hplus
      refine ⟨by simpa using hlt, g2, ?_, hp2⟩
      simpa using hget

lemma position_none_iff (p : Gamepad → Bool) :
    ∀ l : List Gamepad, position p l = none ↔ ∀ g ∈ l, p g = false := by
  intro l
  induction l with
  | nil => simp [position]
  | cons g gs ih =>
    rw [position]
    by_cases hg : p g = true
    · simp [hg]
    · have hg2 : p g = false := by revert hg; cases p g <;> simp
      simp [hg, hg2, ih]

lemma position_append_single (p : Gamepad → Bool) (l : List Gamepad) (x : Gamepad)
    (hl : position p l = none) (hx : p x = true) :
    position p (l ++ [x]) = some l.length := by
  induction l with
  | nil => simp [position, hx]
  | cons g gs ih =>
    rw [position] at hl
    by_cases hg : p g = true
    · rw [if_pos hg] at hl
      exact absurd hl (by simp)
    · rw [if_neg hg] at hl
      have hgs : position p gs = none := by
        revert hl; cases position p gs <;> simp
      simp [position, hg, ih hgs]

/-- C4: resolving a Disconnected event and then a Connected event that carry
the same persistent native identifier yields the same session id both times;
the matching descriptor's connection flag is false after the first resolution
and true after the second. -/
theorem identity_stable (s : Gilrs) (c : RawGameController) (nrid : String)
    (t1 t2 : Nat) (hid : c.nonRoamableId = some nrid) :
    ∃ e1 e2,
      (s.next_event (some ⟨c, EventType.Disconnected, t1⟩)).1 = some e1
      ∧ ((s.next_event (some ⟨c, EventType.Disconnected, t1⟩)).2.next_event
          (some ⟨c, EventType.Connected, t2⟩)).1 = some e2
      ∧ e1.id = e2.id
      ∧ ((s.next_event (some ⟨c, EventType.Disconnected, t1⟩)).2.gamepads[e1.id]?).map
          Gamepad.is_connected = some false
      ∧ (((s.next_event (some ⟨c, EventType.Disconnected, t1⟩)).2.next_event
          (some ⟨c, EventType.Connected, t2⟩)).2.gamepads[e2.id]?).map
          Gamepad.is_connected = some true := by
  have hpres : ∀ (g : Gamepad) (b : Bool),
      matchesController c { g with is_connected := b } = matchesController c g :=
    fun g b => rfl
  cases hpos : position (matchesController c) s.gamepads with
  | some i =>
    obtain ⟨hi, g, hget, hpg⟩ := position_some _ _ _ hpos
    have h1 : s.next_event (some ⟨c, EventType.Disconnected, t1⟩)
        = (some ⟨i, EventType.Disconnected, t1⟩,
           ⟨setConnected s.gamepads i false⟩) := by
      simp only [Gilrs.next_event, hpos]
    have hpos2 : position (matchesController c) (setConnected s.gamepads i false)
        = some i := by
      rw [position_setConnected _ hpres, hpos]
    have h2 : (Gilrs.mk (setConnected s.gamepads i false)).next_event
        (some ⟨c, EventType.Connected, t2⟩)
        = (some ⟨i, EventType.Connected, t2⟩,
           ⟨setConnected (setConnected s.gamepads i false) i true⟩) := by
      simp only [Gilrs.next_event, hpos2]
    refine ⟨⟨i, EventType.Disconnected, t1⟩, ⟨i, EventType.Connected, t2⟩,
      ?_, ?_, rfl, ?_, ?_⟩
    · rw [h1]
    · rw [h1, h2]
    · rw [h1]
      simp [getElem?_setConnected, hget]
    · rw [h1, h2]
      simp [getElem?_setConnected, hget]
  | none =>
    have hg0 : (Gamepad.new s.gamepads.length c).non_roamable_id = nrid := by
      simp [Gamepad.new, hid]
    have hpg0 : matchesController c (Gamepad.new s.gamepads.length c) = true := by
      simp [matchesController, hid, hg0]
    have happ : position (matchesController c)
        (s.gamepads ++ [Gamepad.new s.gamepads.length c]) = some s.gamepads.length :=
      position_append_single _ _ _ hpos hpg0
    have h1 : s.next_event (some ⟨c, EventType.Disconnected, t1⟩)
        = (some ⟨s.gamepads.length, EventType.Disconnected, t1⟩,
           ⟨setConnected (s.gamepads ++ [Gamepad.new s.gamepads.length c])
              s.gamepads.length false⟩) := by
      simp only [Gilrs.next_event, hpos]
    have hpos2 : position (matchesController c)
        (setConnected (s.gamepads ++ [Gamepad.new s.gamepads.length c])
          s.gamepads.length false) = some s.gamepads.length := by
      rw [position_setConnected _ hpres, happ]
    have h2 : (Gilrs.mk (setConnected (s.gamepads ++ [Gamepad.new s.gamepads.length c])
          s.gamepads.length false)).next_event (some ⟨c, EventType.Connected, t2⟩)
        = (some ⟨s.gamepads.length, EventType.Connected, t2⟩,
           ⟨setConnected (setConnected (s.gamepads ++ [Gamepad.new s.gamepads.length c])
              s.gamepads.length false) s.gamepads.length true⟩) := by
      simp only [Gilrs.next_event, hpos2]
    have hgetapp : (s.gamepads ++ [Gamepad.new s.gamepads.length c])[s.gamepads.length]?
        = some (Gamepad.new s.gamepads.length c) := by
      simp
    refine ⟨⟨s.gamepads.length, EventType.Disconnected, t1⟩,
      ⟨s.gamepads.length, EventType.Connected, t2⟩, ?_, ?_, rfl, ?_, ?_⟩
    · rw [h1]
    · rw [h1, h2]
    · rw [h1]
      simp [getElem?_setConnected, hgetapp]
    · rw [h1, h2]
      simp [getElem?_setConnected, hgetapp]

/-- C4 (witness): resolving a Disconnected event on an empty session table
for the test controller yields session id 0 with flag false. -/
theorem identity_stable_witness :
    ((⟨[]⟩ : Gilrs).next_event (some ⟨testControllerA, EventType.Disconnected, 0⟩)).1
        = some ⟨0, EventType.Disconnected, 0⟩
    ∧ (((⟨[]⟩ : Gilrs).next_event
          (some ⟨testControllerA, EventType.Disconnected, 0⟩)).2.gamepads[0]?).map
        Gamepad.is_connected = some false := by
  obtain ⟨e1, e2, h1, h2, h3, h4, h5⟩ :=
    identity_stable ⟨[]⟩ testControllerA "x" 0 1 rfl
  have he1 : e1 = ⟨0, EventType.Disconnected, 0⟩ := by
    have hc : ((⟨[]⟩ : Gilrs).next_event
        (some ⟨testControllerA, EventType.Disconnected, 0⟩)).1
        = some ⟨0, EventType.Disconnected, 0⟩ := by decide
    rw [h1] at hc
    injection hc with he
  subst he1
  exact ⟨h1, h4⟩

lemma setConnected_append_last (A : List Gamepad) (x : Gamepad) (b : Bool) :
    setConnected (A ++ [x]) A.length b = A ++ [{ x with is_connected := b }] := by
  induction A with
  | nil => rfl
  | cons g gs ih => simp [setConnected, ih]

lemma next_event_append (s : Gilrs) (we : WgiEvent)
    (hpos : position (matchesController we.raw_game_controller) s.gamepads = none) :
    ∃ gnew,
      s.next_event (some we)
        = (some ⟨s.gamepads.length, we.event, we.time⟩, ⟨s.gamepads ++ [gnew]⟩)
      ∧ gnew.id = s.gamepads.length := by
  obtain ⟨c, ev, t⟩ := we
  cases ev with
  | Connected =>
    refine ⟨{ Gamepad.new s.gamepads.length c with is_connected := true }, ?_, rfl⟩
    simp only [Gilrs.next_event, hpos]
    rw [setConnected_append_last]
  | Disconnected =>
    refine ⟨{ Gamepad.new s.gamepads.length c with is_connected := false }, ?_, rfl⟩
    simp only [Gilrs.next_event, hpos]
    rw [setConnected_append_last]
  | ButtonPressed code =>
    exact ⟨Gamepad.new s.gamepads.length c, by simp only [Gilrs.next_event, hpos], rfl⟩
  | ButtonReleased code =>
    exact ⟨Gamepad.new s.gamepads.length c, by simp only [Gilrs.next_event, hpos], rfl⟩
  | AxisValueChanged v code =>
    exact ⟨Gamepad.new s.gamepads.length c, by simp only [Gilrs.next_event, hpos], rfl⟩

/-- C7: resolving an event whose persistent native identifier matches no
existing descriptor appends exactly one new descriptor, returns session id
equal to the prior count of descriptors, gives the new descriptor that id,
and leaves every existing descriptor in place unchanged. -/
theorem new_device_append (s : Gilrs) (c : RawGameController) (ev : EventType)
    (t : Nat) (nrid : String) (hid : c.nonRoamableId = some nrid)
    (hnew : ∀ g ∈ s.gamepads, g.non_roamable_id ≠ nrid) :
    ∃ e gnew,
      (s.next_event (some ⟨c, ev, t⟩)).1 = some e
      ∧ e.id = s.gamepads.length
      ∧ gnew.id = s.gamepads.length
      ∧ (s.next_event (some ⟨c, ev, t⟩)).2.gamepads = s.gamepads ++ [gnew]
      ∧ (∀ j, j < s.gamepads.length →
          (s.next_event (some ⟨c, ev, t⟩)).2.gamepads[j]? = s.gamepads[j]?) := by
  have hpos : position (matchesController c) s.gamepads = none := by
    rw [position_none_iff]
    intro g hg
    have hne := hnew g hg
    simp only [matchesController, hid]
    exact beq_eq_false_iff_ne.mpr (Ne.symm hne)
  obtain ⟨gnew, heq, hgid⟩ := next_event_append s ⟨c, ev, t⟩ hpos
  refine ⟨⟨s.gamepads.length, ev, t⟩, gnew, ?_, rfl, hgid, ?_, ?_⟩
  · rw [heq]
  · rw [heq]
  · intro j hj
    rw [heq]
    simp [List.getElem?_append, hj]

/-- C7 (witness): resolving a Connected event on an empty session table
appends one descriptor and returns session id 0. -/
theorem new_device_append_witness :
    ((⟨[]⟩ : Gilrs).next_event (some ⟨testControllerA, EventType.Connected, 0⟩)).1
        = some ⟨0, EventType.Connected, 0⟩
    ∧ ((⟨[]⟩ : Gilrs).next_event
        (some ⟨testControllerA, EventType.Connected, 0⟩)).2.gamepads.length = 1 := by
  obtain ⟨e, gnew, h1, h2, h3, h4, h5⟩ :=
    new_device_append ⟨[]⟩ testControllerA EventType.Connected 0 "x" rfl (by simp)
  have he : e = ⟨0, EventType.Connected, 0⟩ := by
    have hc : ((⟨[]⟩ : Gilrs).next_event
        (some ⟨testControllerA, EventType.Connected, 0⟩)).1
        = some ⟨0, EventType.Connected, 0⟩ := by decide
    rw [h1] at hc
    injection hc with he2
  subst he
  refine ⟨h1, ?_⟩
  rw [h4]
  simp
